import Mathlib

/-!
Shallow embedding of the ICP book-store canister
(`src/icp_rust_boilerplate_backend/src/lib.rs`).

The canister keeps two pieces of persistent state:
* `ID_COUNTER : Cell<u64>` — the identifier allocator, initialized to 0;
* `STORAGE : StableBTreeMap<u64, Book>` — the record store, keyed by id.

We model `u64` values as `Nat` with explicit reduction modulo `2 ^ 64`
at the one place the code performs arithmetic (`current_value + 1` in
`add_book`; release builds of the canister wrap on overflow).  The stable
map is modelled as an association list with insert-overwrite, point
lookup and point removal, which is how the handlers use it.  The ambient
time `ic_cdk::api::time()` is passed to each update handler as an
explicit `now` argument.  Handlers return the Rust `Result` as `Except`
together with the post-state.
-/

/-- `2 ^ 64`, the modulus of Rust's `u64` arithmetic. -/
def U64 : Nat := 2 ^ 64

/-- The `Book` record of the canister (`struct Book`). -/
structure Book where
  id : Nat
  title : String
  author : String
  created_at : Nat
  updated_at : Option Nat
deriving Repr, DecidableEq

/-- The creation/update input (`struct BookPayload`). -/
structure BookPayload where
  title : String
  author : String
deriving Repr, DecidableEq

/-- The canister's error enum (`enum Error`). -/
inductive Error where
  | NotFound (msg : String)
  | InvalidInput (msg : String)
deriving Repr, DecidableEq

/-- Point lookup in the record store (`StableBTreeMap::get`). -/
def mapGet (m : List (Nat × Book)) (k : Nat) : Option Book :=
  match m with
  | [] => none
  | (k1, v) :: rest => if k1 = k then some v else mapGet rest k

/-- Insert-overwrite in the record store (`StableBTreeMap::insert`). -/
def mapInsert (m : List (Nat × Book)) (k : Nat) (v : Book) : List (Nat × Book) :=
  match m with
  | [] => [(k, v)]
  | (k1, v1) :: rest =>
    if k1 = k then (k, v) :: rest else (k1, v1) :: mapInsert rest k v

/-- Point removal in the record store (`StableBTreeMap::remove`):
returns the removed record (if any) and the remaining map. -/
def mapRemove (m : List (Nat × Book)) (k : Nat) : Option Book × List (Nat × Book) :=
  match m with
  | [] => (none, [])
  | (k1, v1) :: rest =>
    if k1 = k then (some v1, rest)
    else
      let r := mapRemove rest k
      (r.1, (k1, v1) :: r.2)

/-- The persistent canister state: the `ID_COUNTER` cell and the
`STORAGE` map. -/
structure St where
  id_counter : Nat
  storage : List (Nat × Book)
deriving Repr, DecidableEq

/-- The fresh state: counter initialized to 0, empty map
(`IdCell::init(…, 0)`, `StableBTreeMap::init`). -/
def freshSt : St := { id_counter := 0, storage := [] }

/-- `fn _get_book(id: &u64) -> Option<Book>`. -/
def _get_book (s : St) (id : Nat) : Option Book :=
  mapGet s.storage id

/-- `fn get_book(id: u64) -> Result<Book, Error>` (a query: it only takes
an immutable borrow of `STORAGE`, so the state is passed through). -/
def get_book (s : St) (id : Nat) : Except Error Book × St :=
  match _get_book s id with
  | some book => (Except.ok book, s)
  | none =>
    (Except.error (Error.NotFound ("a book with id=" ++ toString id ++ " not found")), s)

/-- `fn do_insert(book: &Book)` — inserts into `STORAGE` under `book.id`. -/
def do_insert (s : St) (book : Book) : St :=
  { s with storage := mapInsert s.storage book.id book }

/-- `fn add_book(book: BookPayload) -> Result<Book, Error>`.
`Cell::set` returns the previous value, so `id` is the pre-increment
counter; the increment is `u64` arithmetic, hence the `% U64`. -/
def add_book (s : St) (now : Nat) (p : BookPayload) : Except Error Book × St :=
  if p.title.isEmpty || p.author.isEmpty then
    (Except.error (Error.InvalidInput "All fields must be provided and non-empty"), s)
  else
    let current_value := s.id_counter
    let id := current_value
    let s1 : St := { s with id_counter := (current_value + 1) % U64 }
    let book : Book :=
      { id := id, title := p.title, author := p.author, created_at := now, updated_at := none }
    (Except.ok book, do_insert s1 book)

/-- `fn update_book(id: u64, payload: BookPayload) -> Result<Book, Error>`. -/
def update_book (s : St) (now : Nat) (id : Nat) (p : BookPayload) : Except Error Book × St :=
  if p.title.isEmpty || p.author.isEmpty then
    (Except.error (Error.InvalidInput "All fields must be provided and non-empty"), s)
  else
    match mapGet s.storage id with
    | some book =>
      let book1 : Book :=
        { book with title := p.title, author := p.author, updated_at := some now }
      (Except.ok book1, do_insert s book1)
    | none =>
      (Except.error
        (Error.NotFound ("couldn't update a book with id=" ++ toString id ++ ". book not found")), s)

/-- `fn delete_book(id: u64) -> Result<Book, Error>`. -/
def delete_book (s : St) (id : Nat) : Except Error Book × St :=
  match mapRemove s.storage id with
  | (some book, rest) => (Except.ok book, { s with storage := rest })
  | (none, _) =>
    (Except.error
      (Error.NotFound ("couldn't delete a book with id=" ++ toString id ++ ". book not found.")), s)

/-- One external call to the canister, with the ambient time for the
update calls. -/
inductive Call where
  | get (id : Nat)
  | add (now : Nat) (p : BookPayload)
  | update (now : Nat) (id : Nat) (p : BookPayload)
  | delete (id : Nat)
deriving Repr, DecidableEq

/-- The state after one call (the returned value is dropped). -/
def applyCall (s : St) : Call → St
  | Call.get id => (get_book s id).2
  | Call.add now p => (add_book s now p).2
  | Call.update now id p => (update_book s now id p).2
  | Call.delete id => (delete_book s id).2

/-- The state after a sequence of calls. -/
def runCalls (s : St) : List Call → St
  | [] => s
  | c :: cs => runCalls (applyCall s c) cs

/-- A state reachable from the fresh store by some call sequence. -/
def Reachable (s : St) : Prop :=
  ∃ cs : List Call, runCalls freshSt cs = s

/-- A sequence of `add_book` calls, each with its ambient time:
returns the list of results and the final state. -/
def addSeq (s : St) : List (Nat × BookPayload) → List (Except Error Book) × St
  | [] => ([], s)
  | it :: rest =>
    let r := add_book s it.1 it.2
    let rs := addSeq r.2 rest
    (r.1 :: rs.1, rs.2)

/-! ### Lemmas about the association-list map -/

theorem mapGet_mapInsert (m : List (Nat × Book)) (k v k1) :
    mapGet (mapInsert m k v) k1 = if k = k1 then some v else mapGet m k1 := by
  induction m with
  | nil => simp [mapInsert, mapGet]
  | cons hd tl ih =>
    obtain ⟨a, b⟩ := hd
    by_cases h : a = k
    · subst h
      by_cases h2 : a = k1
      · subst h2
        simp [mapInsert, mapGet]
      · have h3 : ¬ (a = k1) := h2
        simp [mapInsert, mapGet, h3]
    · by_cases h2 : a = k1
      · subst h2
        have h3 : ¬ (k = a) := fun hk => h hk.symm
        simp [mapInsert, mapGet, h, h3]
      · simp [mapInsert, mapGet, h, h2, ih]

theorem mapGet_eq_none_of_not_mem (m : List (Nat × Book)) (k : Nat)
    (h : k ∉ m.map Prod.fst) : mapGet m k = none := by
  induction m with
  | nil => rfl
  | cons hd tl ih =>
    obtain ⟨a, b⟩ := hd
    simp only [List.map_cons, List.mem_cons] at h
    push_neg at h
    have h1 : ¬ (a = k) := fun hk => h.1 hk.symm
    simp [mapGet, h1, ih h.2]

theorem mapRemove_fst (m : List (Nat × Book)) (k : Nat) :
    (mapRemove m k).1 = mapGet m k := by
  induction m with
  | nil => rfl
  | cons hd tl ih =>
    obtain ⟨a, b⟩ := hd
    by_cases h : a = k <;> simp [mapRemove, mapGet, h, ih]

theorem mapGet_mapRemove_ne (m : List (Nat × Book)) (k k1 : Nat) (h : k1 ≠ k) :
    mapGet (mapRemove m k).2 k1 = mapGet m k1 := by
  induction m with
  | nil => rfl
  | cons hd tl ih =>
    obtain ⟨a, b⟩ := hd
    by_cases h1 : a = k
    · subst h1
      have h2 : ¬ (a = k1) := fun hk => h (hk.symm)
      simp [mapRemove, mapGet, h2]
    · by_cases h2 : a = k1 <;> simp [mapRemove, mapGet, h, h1, h2, ih]

theorem mapRemove_of_absent (m : List (Nat × Book)) (k : Nat)
    (h : mapGet m k = none) : (mapRemove m k).2 = m := by
  induction m with
  | nil => rfl
  | cons hd tl ih =>
    obtain ⟨a, b⟩ := hd
    by_cases h1 : a = k
    · exact absurd h (by simp [mapGet, h1])
    · simp only [mapGet, if_neg h1] at h
      simp [mapRemove, h1, ih h]

theorem mem_keys_mapInsert (m : List (Nat × Book)) (k v x) :
    x ∈ (mapInsert m k v).map Prod.fst ↔ x = k ∨ x ∈ m.map Prod.fst := by
  induction m with
  | nil => simp [mapInsert]
  | cons hd tl ih =>
    obtain ⟨a, b⟩ := hd
    by_cases h : a = k
    · subst h
      simp [mapInsert]
    · simp [mapInsert, h, ih]
      tauto

theorem nodup_keys_mapInsert (m : List (Nat × Book)) (k v)
    (h : (m.map Prod.fst).Nodup) : ((mapInsert m k v).map Prod.fst).Nodup := by
  induction m with
  | nil => simp [mapInsert]
  | cons hd tl ih =>
    obtain ⟨a, b⟩ := hd
    simp only [List.map_cons, List.nodup_cons] at h
    by_cases h1 : a = k
    · subst h1
      simp [mapInsert, List.nodup_cons, h.1, h.2]
    · simp only [mapInsert, if_neg h1, List.map_cons, List.nodup_cons]
      refine ⟨?_, ih h.2⟩
      rw [mem_keys_mapInsert]
      rintro (rfl | hm)
      · exact h1 rfl
      · exact h.1 hm

theorem mem_keys_mapRemove (m : List (Nat × Book)) (k x)
    (h : x ∈ (mapRemove m k).2.map Prod.fst) : x ∈ m.map Prod.fst := by
  induction m with
  | nil => exact h
  | cons hd tl ih =>
    obtain ⟨a, b⟩ := hd
    by_cases h1 : a = k
    · simp only [mapRemove, if_pos h1] at h
      simp [List.mem_cons, h]
    · simp only [mapRemove, if_neg h1, List.map_cons, List.mem_cons] at h
      rcases h with h | h
      · simp [h]
      · simp [ih h]

theorem nodup_keys_mapRemove (m : List (Nat × Book)) (k)
    (h : (m.map Prod.fst).Nodup) : ((mapRemove m k).2.map Prod.fst).Nodup := by
  induction m with
  | nil => exact h
  | cons hd tl ih =>
    obtain ⟨a, b⟩ := hd
    simp only [List.map_cons, List.nodup_cons] at h
    by_cases h1 : a = k
    · simpa [mapRemove, h1] using h.2
    · simp only [mapRemove, if_neg h1, List.map_cons, List.nodup_cons]
      exact ⟨fun hm => h.1 (mem_keys_mapRemove tl k a hm), ih h.2⟩

theorem mapGet_mapRemove_self (m : List (Nat × Book)) (k : Nat)
    (h : (m.map Prod.fst).Nodup) : mapGet (mapRemove m k).2 k = none := by
  induction m with
  | nil => rfl
  | cons hd tl ih =>
    obtain ⟨a, b⟩ := hd
    simp only [List.map_cons, List.nodup_cons] at h
    by_cases h1 : a = k
    · subst h1
      simp only [mapRemove, if_pos rfl]
      exact mapGet_eq_none_of_not_mem tl a h.1
    · simp [mapRemove, mapGet, h1, ih h.2]

/-! ### The store invariant and reachable states -/

/-- Well-formed state: the map keys are duplicate-free (as in a
`StableBTreeMap`), every stored record sits under the key equal to its
own `id` field, and every stored record has non-empty `title` and
`author`. -/
def WF (s : St) : Prop :=
  (s.storage.map Prod.fst).Nodup ∧
  ∀ k b, mapGet s.storage k = some b →
    b.id = k ∧ b.title.isEmpty = false ∧ b.author.isEmpty = false

theorem WF_freshSt : WF freshSt := by
  constructor
  · simp [freshSt]
  · intro k b h
    simp [freshSt, mapGet] at h

theorem get_book_snd (s : St) (id : Nat) : (get_book s id).2 = s := by
  cases h : _get_book s id <;> simp [get_book, h]

theorem delete_book_counter (s : St) (id : Nat) :
    (delete_book s id).2.id_counter = s.id_counter := by
  rcases hr : mapRemove s.storage id with ⟨ob, rest⟩
  cases ob <;> simp [delete_book, hr]

theorem WF_applyCall (s : St) (c : Call) (h : WF s) : WF (applyCall s c) := by
  cases c with
  | get id =>
    simpa [applyCall, get_book_snd] using h
  | add now p =>
    by_cases hv : (p.title.isEmpty || p.author.isEmpty) = true
    · simpa [applyCall, add_book, hv] using h
    · simp only [Bool.or_eq_true] at hv
      push_neg at hv
      have ht : p.title.isEmpty = false := by
        cases hx : p.title.isEmpty
        · rfl
        · exact absurd hx hv.1
      have ha : p.author.isEmpty = false := by
        cases hx : p.author.isEmpty
        · rfl
        · exact absurd hx hv.2
      simp only [applyCall, add_book, ht, ha, Bool.or_self, Bool.false_eq_true,
        if_false, do_insert]
      constructor
      · exact nodup_keys_mapInsert s.storage _ _ h.1
      · intro k b hb
        rw [mapGet_mapInsert] at hb
        by_cases hk : s.id_counter = k
        · simp only [if_pos hk, Option.some.injEq] at hb
          subst hb
          exact ⟨hk, ht, ha⟩
        · rw [if_neg hk] at hb
          exact h.2 k b hb
  | update now id p =>
    by_cases hv : (p.title.isEmpty || p.author.isEmpty) = true
    · simpa [applyCall, update_book, hv] using h
    · simp only [Bool.or_eq_true] at hv
      push_neg at hv
      have ht : p.title.isEmpty = false := by
        cases hx : p.title.isEmpty
        · rfl
        · exact absurd hx hv.1
      have ha : p.author.isEmpty = false := by
        cases hx : p.author.isEmpty
        · rfl
        · exact absurd hx hv.2
      cases hg : mapGet s.storage id with
      | none => simpa [applyCall, update_book, ht, ha, hg] using h
      | some book =>
        simp only [applyCall, update_book, ht, ha, Bool.or_self, Bool.false_eq_true,
          if_false, hg, do_insert]
        constructor
        · exact nodup_keys_mapInsert s.storage _ _ h.1
        · intro k b hb
          rw [mapGet_mapInsert] at hb
          by_cases hk : book.id = k
          · simp only [if_pos hk, Option.some.injEq] at hb
            subst hb
            exact ⟨hk, ht, ha⟩
          · rw [if_neg hk] at hb
            exact h.2 k b hb
  | delete id =>
    rcases hr : mapRemove s.storage id with ⟨ob, rest⟩
    cases ob with
    | none => simpa [applyCall, delete_book, hr] using h
    | some book =>
      have hrest : rest = (mapRemove s.storage id).2 := by rw [hr]
      simp only [applyCall, delete_book, hr]
      constructor
      · rw [hrest]
        exact nodup_keys_mapRemove s.storage id h.1
      · intro k b hb
        by_cases hk : k = id
        · subst hk
          rw [hrest, mapGet_mapRemove_self s.storage k h.1] at hb
          exact absurd hb (by simp)
        · rw [hrest, mapGet_mapRemove_ne s.storage id k hk] at hb
          exact h.2 k b hb

theorem WF_runCalls (cs : List Call) : ∀ s : St, WF s → WF (runCalls s cs) := by
  induction cs with
  | nil => intro s h; exact h
  | cons c cs ih =>
    intro s h
    exact ih (applyCall s c) (WF_applyCall s c h)

theorem WF_of_reachable (s : St) (h : Reachable s) : WF s := by
  obtain ⟨cs, hcs⟩ := h
  rw [← hcs]
  exact WF_runCalls cs freshSt WF_freshSt

/-! ### The behaviour of a sequence of creations -/

theorem U64_pos : 0 < U64 := by
  simp [U64]

theorem add_book_valid (s : St) (now : Nat) (p : BookPayload)
    (ht : p.title.isEmpty = false) (ha : p.author.isEmpty = false) :
    add_book s now p =
      (Except.ok
        { id := s.id_counter, title := p.title, author := p.author,
          created_at := now, updated_at := none },
       { id_counter := (s.id_counter + 1) % U64,
         storage := mapInsert s.storage s.id_counter
           { id := s.id_counter, title := p.title, author := p.author,
             created_at := now, updated_at := none } }) := by
  simp [add_book, ht, ha, do_insert]

theorem addSeq_spec : ∀ (items : List (Nat × BookPayload)) (s : St),
    s.id_counter < U64 →
    (∀ x ∈ items, x.2.title.isEmpty = false ∧ x.2.author.isEmpty = false) →
    (addSeq s items).1.length = items.length ∧
    (addSeq s items).2.id_counter = (s.id_counter + items.length) % U64 ∧
    ∀ i, i < items.length →
      ∃ it, items.get? i = some it ∧
        (addSeq s items).1.get? i =
          some (Except.ok
            { id := (s.id_counter + i) % U64, title := it.2.title,
              author := it.2.author, created_at := it.1, updated_at := none }) := by
  intro items
  induction items with
  | nil =>
    intro s hc _
    refine ⟨rfl, ?_, ?_⟩
    · simp [addSeq, Nat.mod_eq_of_lt hc]
    · intro i hi
      exact absurd hi (by simp)
  | cons it rest ih =>
    intro s hc hv
    have hvit := hv it (by simp)
    have hvrest : ∀ x ∈ rest, x.2.title.isEmpty = false ∧ x.2.author.isEmpty = false :=
      fun x hx => hv x (List.mem_cons_of_mem it hx)
    have hstep := add_book_valid s it.1 it.2 hvit.1 hvit.2
    have hc1 : ((s.id_counter + 1) % U64) < U64 := Nat.mod_lt _ U64_pos
    have hrec := ih { id_counter := (s.id_counter + 1) % U64,
                      storage := mapInsert s.storage s.id_counter
                        { id := s.id_counter, title := it.2.title, author := it.2.author,
                          created_at := it.1, updated_at := none } } hc1 hvrest
    refine ⟨?_, ?_, ?_⟩
    · simp only [addSeq, hstep]
      simpa using hrec.1
    · simp only [addSeq, hstep]
      rw [hrec.2.1]
      simp only [List.length_cons, Nat.mod_add_mod]
      ring_nf
    · intro i hi
      cases i with
      | zero =>
        refine ⟨it, rfl, ?_⟩
        simp only [addSeq, hstep, List.get?]
        rw [Nat.add_zero, Nat.mod_eq_of_lt hc]
      | succ j =>
        have hj : j < rest.length := by
          simpa [Nat.succ_lt_succ_iff] using hi
        obtain ⟨it1, hit1, hres⟩ := hrec.2.2 j hj
        refine ⟨it1, by simpa [List.get?] using hit1, ?_⟩
        simp only [addSeq, hstep, List.get?]
        rw [hres]
        have harith : ((s.id_counter + 1) % U64 + j) % U64 = (s.id_counter + (j + 1)) % U64 := by
          rw [Nat.mod_add_mod]
          ring_nf
        rw [harith]

/-! ### Claim theorems -/

/-- Claim C2: for every payload whose title or author is empty, `add_book`
returns `InvalidInput` and leaves all state unchanged — the counter is not
advanced, the store is not modified — so a subsequent `add_book` behaves
exactly as if the failed call had never occurred. -/
theorem add_book_invalid_input (s : St) (now : Nat) (p : BookPayload)
    (h : p.title.isEmpty = true ∨ p.author.isEmpty = true) :
    add_book s now p =
      (Except.error (Error.InvalidInput "All fields must be provided and non-empty"), s) ∧
    (add_book s now p).2.id_counter = s.id_counter ∧
    (add_book s now p).2.storage = s.storage ∧
    ∀ (now2 : Nat) (q : BookPayload),
      add_book (add_book s now p).2 now2 q = add_book s now2 q := by
  have hg : (p.title.isEmpty || p.author.isEmpty) = true := by
    rcases h with h | h <;> simp [h]
  have h1 : add_book s now p =
      (Except.error (Error.InvalidInput "All fields must be provided and non-empty"), s) := by
    simp [add_book, hg]
  refine ⟨h1, ?_, ?_, ?_⟩ <;> rw [h1]
  exact fun now2 q => rfl

/-- Witness for C2 at the concrete payload `{title := "", author := "X"}`. -/
theorem add_book_invalid_input_witness :
    add_book freshSt 0 (BookPayload.mk "" "X") =
      (Except.error (Error.InvalidInput "All fields must be provided and non-empty"), freshSt) ∧
    (add_book freshSt 0 (BookPayload.mk "" "X")).2.id_counter = freshSt.id_counter ∧
    (add_book freshSt 0 (BookPayload.mk "" "X")).2.storage = freshSt.storage ∧
    ∀ (now2 : Nat) (q : BookPayload),
      add_book (add_book freshSt 0 (BookPayload.mk "" "X")).2 now2 q =
        add_book freshSt now2 q :=
  add_book_invalid_input freshSt 0 (BookPayload.mk "" "X") (Or.inl rfl)

/-- Claim C3: `update_book` validates emptiness before the existence lookup:
an empty title or author yields `InvalidInput` for every `id` (the state
untouched), even when no record exists at `id`, and a `NotFound` result is
only possible when both fields are non-empty. -/
theorem update_book_validation_order (s : St) (now id : Nat) (p : BookPayload) :
    (p.title.isEmpty = true ∨ p.author.isEmpty = true →
      update_book s now id p =
        (Except.error (Error.InvalidInput "All fields must be provided and non-empty"), s)) ∧
    (∀ m, (update_book s now id p).1 = Except.error (Error.NotFound m) →
      p.title.isEmpty = false ∧ p.author.isEmpty = false) := by
  constructor
  · intro h
    have hg : (p.title.isEmpty || p.author.isEmpty) = true := by
      rcases h with h | h <;> simp [h]
    simp [update_book, hg]
  · intro m hm
    by_cases hg : (p.title.isEmpty || p.author.isEmpty) = true
    · rw [update_book] at hm
      simp [hg] at hm
    · simp only [Bool.or_eq_true, not_or, Bool.not_eq_true] at hg
      exact hg

/-- Witness for C3: an empty-title update against the absent id 7 on the
fresh store reports `InvalidInput`, not `NotFound`. -/
theorem update_book_validation_order_witness :
    update_book freshSt 0 7 (BookPayload.mk "" "Y") =
      (Except.error (Error.InvalidInput "All fields must be provided and non-empty"), freshSt) :=
  (update_book_validation_order freshSt 0 7 (BookPayload.mk "" "Y")).1 (Or.inl rfl)

/-- Claim C4: for every valid payload, `add_book` succeeds with a record
carrying the given title and author, `created_at` equal to the creation
time and `updated_at` absent, and an immediate `get_book` on the returned
record's id returns a record equal to it (in all fields). -/
theorem add_book_then_get (s : St) (now : Nat) (p : BookPayload)
    (ht : p.title.isEmpty = false) (ha : p.author.isEmpty = false) :
    ∃ b s1, add_book s now p = (Except.ok b, s1) ∧
      get_book s1 b.id = (Except.ok b, s1) ∧
      b.title = p.title ∧ b.author = p.author ∧
      b.created_at = now ∧ b.updated_at = none := by
  refine ⟨_, _, add_book_valid s now p ht ha, ?_, rfl, rfl, rfl, rfl⟩
  simp [get_book, _get_book, mapGet_mapInsert]

/-- Witness for C4 at the concrete payload `{title := "Dune", author :=
"Herbert"}` on the fresh store. -/
theorem add_book_then_get_witness :
    ∃ b s1, add_book freshSt 5 (BookPayload.mk "Dune" "Herbert") = (Except.ok b, s1) ∧
      get_book s1 b.id = (Except.ok b, s1) ∧
      b.title = "Dune" ∧ b.author = "Herbert" ∧
      b.created_at = 5 ∧ b.updated_at = none :=
  add_book_then_get freshSt 5 (BookPayload.mk "Dune" "Herbert") rfl rfl

/-- Claim C7: `get_book` returns the stored record exactly when one is
present at `id`; otherwise it returns a `NotFound` error whose message
contains the missing `id`; and the call leaves the state (counter and
store) unchanged. -/
theorem get_book_spec (s : St) (id : Nat) :
    (∀ b, mapGet s.storage id = some b → get_book s id = (Except.ok b, s)) ∧
    (mapGet s.storage id = none →
      ∃ pre post, get_book s id =
        (Except.error (Error.NotFound (pre ++ toString id ++ post)), s)) ∧
    (get_book s id).2 = s := by
  refine ⟨?_, ?_, get_book_snd s id⟩
  · intro b hb
    simp [get_book, _get_book, hb]
  · intro hb
    exact ⟨"a book with id=", " not found", by simp [get_book, _get_book, hb]⟩

/-- Witness for C7: looking up id 0 after one creation returns the stored
record and passes the state through; looking up the never-assigned id 3 on
the fresh store fails with a `NotFound` message containing `3`. -/
theorem get_book_spec_witness :
    get_book (add_book freshSt 5 (BookPayload.mk "Dune" "Herbert")).2 0 =
      (Except.ok (Book.mk 0 "Dune" "Herbert" 5 none),
       (add_book freshSt 5 (BookPayload.mk "Dune" "Herbert")).2) ∧
    (∃ pre post, get_book freshSt 3 =
      (Except.error (Error.NotFound (pre ++ toString 3 ++ post)), freshSt)) :=
  ⟨(get_book_spec (add_book freshSt 5 (BookPayload.mk "Dune" "Herbert")).2 0).1
      (Book.mk 0 "Dune" "Herbert" 5 none) rfl,
   (get_book_spec freshSt 3).2.1 rfl⟩

/-- Claim C9: emptiness is the only validation — any payload with non-empty
title and author (whitespace-only included) is accepted by `add_book`, and
by `update_book` whenever the record exists, and the fields are stored
verbatim with no trimming; `update_book` never reports `InvalidInput` for
such a payload. -/
theorem emptiness_only_validation (s : St) (now id : Nat) (p : BookPayload)
    (ht : p.title.isEmpty = false) (ha : p.author.isEmpty = false) :
    (∃ b s1, add_book s now p = (Except.ok b, s1) ∧
      b.title = p.title ∧ b.author = p.author ∧ mapGet s1.storage b.id = some b) ∧
    (∀ m, (update_book s now id p).1 ≠ Except.error (Error.InvalidInput m)) ∧
    (∀ b0, mapGet s.storage id = some b0 →
      ∃ b, (update_book s now id p).1 = Except.ok b ∧
        b.title = p.title ∧ b.author = p.author) := by
  refine ⟨⟨_, _, add_book_valid s now p ht ha, rfl, rfl, ?_⟩, ?_, ?_⟩
  · simp [mapGet_mapInsert]
  · intro m hm
    rw [update_book] at hm
    simp only [ht, ha, Bool.or_self, Bool.false_eq_true, if_false] at hm
    cases hg : mapGet s.storage id <;> rw [hg] at hm <;> simp at hm
  · intro b0 hb0
    refine ⟨{ b0 with title := p.title, author := p.author, updated_at := some now }, ?_, rfl, rfl⟩
    rw [update_book]
    simp [ht, ha, hb0]

/-- Witness for C9 at the whitespace-only payload `{title := " ", author :=
" "}`, against a store holding one record at id 0. -/
theorem emptiness_only_validation_witness :
    (∃ b s1, add_book (add_book freshSt 5 (BookPayload.mk "Dune" "Herbert")).2 7
        (BookPayload.mk " " " ") = (Except.ok b, s1) ∧
      b.title = " " ∧ b.author = " " ∧ mapGet s1.storage b.id = some b) ∧
    (∀ m, (update_book (add_book freshSt 5 (BookPayload.mk "Dune" "Herbert")).2 7 0
        (BookPayload.mk " " " ")).1 ≠ Except.error (Error.InvalidInput m)) ∧
    (∀ b0, mapGet (add_book freshSt 5 (BookPayload.mk "Dune" "Herbert")).2.storage 0 = some b0 →
      ∃ b, (update_book (add_book freshSt 5 (BookPayload.mk "Dune" "Herbert")).2 7 0
          (BookPayload.mk " " " ")).1 = Except.ok b ∧
        b.title = " " ∧ b.author = " ") :=
  emptiness_only_validation (add_book freshSt 5 (BookPayload.mk "Dune" "Herbert")).2 7 0
    (BookPayload.mk " " " ") rfl rfl

/-- Claim C10: the counter increment in `add_book` is unguarded `u64`
arithmetic: whenever the counter is strictly below `2 ^ 64 - 1`, a
successful `add_book` advances it by exactly 1; at `2 ^ 64 - 1` the
increment wraps to 0 instead. -/
theorem add_book_counter_increment (s : St) (now : Nat) (p : BookPayload)
    (ht : p.title.isEmpty = false) (ha : p.author.isEmpty = false) :
    (s.id_counter < U64 - 1 → (add_book s now p).2.id_counter = s.id_counter + 1) ∧
    (s.id_counter = U64 - 1 → (add_book s now p).2.id_counter = 0) := by
  rw [add_book_valid s now p ht ha]
  have h0 := U64_pos
  constructor
  · intro h
    exact Nat.mod_eq_of_lt (by omega)
  · intro h
    rw [h]
    have h1 : U64 - 1 + 1 = U64 := Nat.succ_pred_eq_of_pos h0
    rw [h1, Nat.mod_self]

/-- Witness for C10 at a concrete state with counter 3 and a valid
payload. -/
theorem add_book_counter_increment_witness :
    ((St.mk 3 []).id_counter < U64 - 1 →
      (add_book (St.mk 3 []) 0 (BookPayload.mk "a" "b")).2.id_counter =
        (St.mk 3 []).id_counter + 1) ∧
    ((St.mk 3 []).id_counter = U64 - 1 →
      (add_book (St.mk 3 []) 0 (BookPayload.mk "a" "b")).2.id_counter = 0) :=
  add_book_counter_increment (St.mk 3 []) 0 (BookPayload.mk "a" "b") rfl rfl

/-- Claim C5: on any reachable state, updating an existing record with a
valid payload replaces exactly `title` and `author`, sets `updated_at` to
the current time, keeps `id` and `created_at`, stores the result back
under the same key `id`, leaves the allocator counter unchanged, and
leaves every entry at a key other than `id` unchanged. -/
theorem update_book_frame (s : St) (now id : Nat) (p : BookPayload) (b0 : Book)
    (hs : Reachable s) (hb : mapGet s.storage id = some b0)
    (ht : p.title.isEmpty = false) (ha : p.author.isEmpty = false) :
    ∃ b, update_book s now id p =
        (Except.ok b, { id_counter := s.id_counter, storage := mapInsert s.storage id b }) ∧
      b.id = b0.id ∧ b.created_at = b0.created_at ∧
      b.title = p.title ∧ b.author = p.author ∧ b.updated_at = some now ∧
      mapGet (mapInsert s.storage id b) id = some b ∧
      (∀ k, k ≠ id → mapGet (mapInsert s.storage id b) k = mapGet s.storage k) := by
  have hwf := WF_of_reachable s hs
  have hid : b0.id = id := (hwf.2 id b0 hb).1
  refine ⟨{ b0 with title := p.title, author := p.author, updated_at := some now },
    ?_, rfl, rfl, rfl, rfl, rfl, ?_, ?_⟩
  · rw [update_book]
    simp [ht, ha, hb, do_insert, hid]
  · rw [mapGet_mapInsert]
    simp
  · intro k hk
    rw [mapGet_mapInsert, if_neg (fun h => hk h.symm)]

/-- Witness for C5: updating the single record at id 0 of a store reached
by one creation. -/
theorem update_book_frame_witness :
    ∃ b, update_book (add_book freshSt 5 (BookPayload.mk "Dune" "Herbert")).2 9 0
        (BookPayload.mk "Dune (rev)" "Herbert") =
        (Except.ok b,
         { id_counter := (add_book freshSt 5 (BookPayload.mk "Dune" "Herbert")).2.id_counter,
           storage := mapInsert
             (add_book freshSt 5 (BookPayload.mk "Dune" "Herbert")).2.storage 0 b }) ∧
      b.id = (Book.mk 0 "Dune" "Herbert" 5 none).id ∧
      b.created_at = (Book.mk 0 "Dune" "Herbert" 5 none).created_at ∧
      b.title = "Dune (rev)" ∧ b.author = "Herbert" ∧ b.updated_at = some 9 ∧
      mapGet (mapInsert (add_book freshSt 5 (BookPayload.mk "Dune" "Herbert")).2.storage 0 b) 0 =
        some b ∧
      (∀ k, k ≠ 0 →
        mapGet (mapInsert (add_book freshSt 5 (BookPayload.mk "Dune" "Herbert")).2.storage 0 b) k =
          mapGet (add_book freshSt 5 (BookPayload.mk "Dune" "Herbert")).2.storage k) :=
  update_book_frame (add_book freshSt 5 (BookPayload.mk "Dune" "Herbert")).2 9 0
    (BookPayload.mk "Dune (rev)" "Herbert") (Book.mk 0 "Dune" "Herbert" 5 none)
    ⟨[Call.add 5 (BookPayload.mk "Dune" "Herbert")], rfl⟩ rfl rfl rfl

/-- Claim C6: on any reachable state, deleting an existing record returns
it and removes its entry — a subsequent `get_book` and a second
`delete_book` on the same id both fail with `NotFound` — deleting an
absent id fails with `NotFound` leaving the state unchanged, and
`delete_book` never modifies the allocator counter. -/
theorem delete_book_spec (s : St) (id : Nat) (hs : Reachable s) :
    (∀ b, mapGet s.storage id = some b →
      delete_book s id =
        (Except.ok b, { id_counter := s.id_counter, storage := (mapRemove s.storage id).2 }) ∧
      (get_book (delete_book s id).2 id).1 =
        Except.error (Error.NotFound ("a book with id=" ++ toString id ++ " not found")) ∧
      (delete_book (delete_book s id).2 id).1 =
        Except.error
          (Error.NotFound ("couldn't delete a book with id=" ++ toString id ++
            ". book not found."))) ∧
    (mapGet s.storage id = none →
      delete_book s id =
        (Except.error
          (Error.NotFound ("couldn't delete a book with id=" ++ toString id ++
            ". book not found.")), s)) ∧
    (delete_book s id).2.id_counter = s.id_counter := by
  have hwf := WF_of_reachable s hs
  refine ⟨?_, ?_, delete_book_counter s id⟩
  · intro b hb
    have hfst : (mapRemove s.storage id).1 = some b := by
      rw [mapRemove_fst, hb]
    have hself := mapGet_mapRemove_self s.storage id hwf.1
    rcases hr : mapRemove s.storage id with ⟨ob, rest⟩
    rw [hr] at hfst hself
    subst hfst
    have hdel : delete_book s id = (Except.ok b, { s with storage := rest }) := by
      simp [delete_book, hr]
    refine ⟨?_, ?_, ?_⟩
    · rw [hdel]
    · rw [hdel]
      simp [get_book, _get_book, hself]
    · rw [hdel]
      have hfst2 : (mapRemove rest id).1 = none := by
        rw [mapRemove_fst, hself]
      rcases hr2 : mapRemove rest id with ⟨ob2, rest2⟩
      rw [hr2] at hfst2
      subst hfst2
      simp [delete_book, hr2]
  · intro hb
    have hfst : (mapRemove s.storage id).1 = none := by
      rw [mapRemove_fst, hb]
    have habs : (mapRemove s.storage id).2 = s.storage := mapRemove_of_absent s.storage id hb
    rcases hr : mapRemove s.storage id with ⟨ob, rest⟩
    rw [hr] at hfst habs
    subst hfst
    simp [delete_book, hr]

/-- Witness for C6 at id 0 of a store reached by one creation. -/
theorem delete_book_spec_witness :
    (∀ b, mapGet (add_book freshSt 5 (BookPayload.mk "Dune" "Herbert")).2.storage 0 = some b →
      delete_book (add_book freshSt 5 (BookPayload.mk "Dune" "Herbert")).2 0 =
        (Except.ok b,
         { id_counter := (add_book freshSt 5 (BookPayload.mk "Dune" "Herbert")).2.id_counter,
           storage :=
             (mapRemove (add_book freshSt 5 (BookPayload.mk "Dune" "Herbert")).2.storage 0).2 }) ∧
      (get_book (delete_book (add_book freshSt 5 (BookPayload.mk "Dune" "Herbert")).2 0).2 0).1 =
        Except.error (Error.NotFound ("a book with id=" ++ toString 0 ++ " not found")) ∧
      (delete_book (delete_book (add_book freshSt 5 (BookPayload.mk "Dune" "Herbert")).2 0).2 0).1 =
        Except.error
          (Error.NotFound ("couldn't delete a book with id=" ++ toString 0 ++
            ". book not found."))) ∧
    (mapGet (add_book freshSt 5 (BookPayload.mk "Dune" "Herbert")).2.storage 0 = none →
      delete_book (add_book freshSt 5 (BookPayload.mk "Dune" "Herbert")).2 0 =
        (Except.error
          (Error.NotFound ("couldn't delete a book with id=" ++ toString 0 ++
            ". book not found.")),
         (add_book freshSt 5 (BookPayload.mk "Dune" "Herbert")).2)) ∧
    (delete_book (add_book freshSt 5 (BookPayload.mk "Dune" "Herbert")).2 0).2.id_counter =
      (add_book freshSt 5 (BookPayload.mk "Dune" "Herbert")).2.id_counter :=
  delete_book_spec (add_book freshSt 5 (BookPayload.mk "Dune" "Herbert")).2 0
    ⟨[Call.add 5 (BookPayload.mk "Dune" "Herbert")], rfl⟩

/-- Claim C8: in every state reachable from the fresh store by any
sequence of calls, every record present in the store is stored under the
key equal to its own `id` field and has non-empty `title` and `author`. -/
theorem storage_key_invariant (cs : List Call) (k : Nat) (b : Book)
    (h : mapGet (runCalls freshSt cs).storage k = some b) :
    b.id = k ∧ b.title.isEmpty = false ∧ b.author.isEmpty = false :=
  (WF_runCalls cs freshSt WF_freshSt).2 k b h

/-- Witness for C8 at a concrete two-call sequence. -/
theorem storage_key_invariant_witness :
    (Book.mk 0 "Dune" "Herbert" 5 none).id = 0 ∧
    (Book.mk 0 "Dune" "Herbert" 5 none).title.isEmpty = false ∧
    (Book.mk 0 "Dune" "Herbert" 5 none).author.isEmpty = false :=
  storage_key_invariant
    [Call.add 5 (BookPayload.mk "Dune" "Herbert"), Call.get 0] 0
    (Book.mk 0 "Dune" "Herbert" 5 none) rfl

/-- Claim C1 (amended): on a fresh store, any sequence of `n ≤ 2 ^ 64`
successful `add_book` calls returns ids `0, 1, …, n - 1`: each call
returns the pre-increment counter as the new record's id and sets the
counter to the old value plus one reduced modulo `2 ^ 64` (an increment by
exactly 1 as long as the counter stays below `2 ^ 64 - 1`), so the ids are
strictly increasing by exactly 1 starting from 0. -/
theorem addSeq_ids_from_fresh (items : List (Nat × BookPayload))
    (hv : ∀ x ∈ items, x.2.title.isEmpty = false ∧ x.2.author.isEmpty = false)
    (hn : items.length ≤ U64) :
    (addSeq freshSt items).1.length = items.length ∧
    ∀ i, i < items.length →
      ∃ it b, items.get? i = some it ∧
        (addSeq freshSt items).1.get? i = some (Except.ok b) ∧
        b.id = i ∧ b.title = it.2.title ∧ b.author = it.2.author ∧
        b.created_at = it.1 ∧ b.updated_at = none := by
  have h := addSeq_spec items freshSt U64_pos hv
  refine ⟨h.1, ?_⟩
  intro i hi
  obtain ⟨it, hit, hres⟩ := h.2.2 i hi
  have hi64 : i < U64 := lt_of_lt_of_le hi hn
  have hidi : (freshSt.id_counter + i) % U64 = i := by
    show (0 + i) % U64 = i
    rw [Nat.zero_add, Nat.mod_eq_of_lt hi64]
  rw [hidi] at hres
  exact ⟨it, _, hit, hres, rfl, rfl, rfl, rfl, rfl⟩

/-- Witness for the amended C1 at a concrete two-element sequence. -/
theorem addSeq_ids_from_fresh_witness :
    (addSeq freshSt [(5, BookPayload.mk "Dune" "Herbert"), (6, BookPayload.mk "B" "C")]).1.length =
      [(5, BookPayload.mk "Dune" "Herbert"), (6, BookPayload.mk "B" "C")].length ∧
    ∀ i, i < [(5, BookPayload.mk "Dune" "Herbert"), (6, BookPayload.mk "B" "C")].length →
      ∃ it b, [(5, BookPayload.mk "Dune" "Herbert"), (6, BookPayload.mk "B" "C")].get? i = some it ∧
        (addSeq freshSt
          [(5, BookPayload.mk "Dune" "Herbert"), (6, BookPayload.mk "B" "C")]).1.get? i =
            some (Except.ok b) ∧
        b.id = i ∧ b.title = it.2.title ∧ b.author = it.2.author ∧
        b.created_at = it.1 ∧ b.updated_at = none :=
  addSeq_ids_from_fresh [(5, BookPayload.mk "Dune" "Herbert"), (6, BookPayload.mk "B" "C")]
    (by decide) (by norm_num [U64])

/-- Counterexample to C1 as stated: the claim quantifies over every `n`,
but the counter is `u64` and wraps — in the sequence of `2 ^ 64 + 1`
successful `add_book` calls on the fresh store, the call at index `2 ^ 64`
returns id 0, not `2 ^ 64`, so the returned ids are not
`0, 1, …, n - 1` and are not strictly increasing. -/
theorem addSeq_ids_wrap_counterexample :
    (addSeq freshSt (List.replicate (U64 + 1) (0, BookPayload.mk "a" "b"))).1.get? U64 =
      some (Except.ok (Book.mk 0 "a" "b" 0 none)) ∧ (0 : Nat) ≠ U64 := by
  have hv : ∀ x ∈ List.replicate (U64 + 1) (0, BookPayload.mk "a" "b"),
      x.2.title.isEmpty = false ∧ x.2.author.isEmpty = false := by
    intro x hx
    rw [List.eq_of_mem_replicate hx]
    exact ⟨rfl, rfl⟩
  have h := addSeq_spec (List.replicate (U64 + 1) (0, BookPayload.mk "a" "b")) freshSt U64_pos hv
  have hlen : (List.replicate (U64 + 1) (0, BookPayload.mk "a" "b")).length = U64 + 1 :=
    List.length_replicate _ _
  obtain ⟨it, hit, hres⟩ := h.2.2 U64 (by rw [hlen]; omega)
  have hit2 : it = (0, BookPayload.mk "a" "b") :=
    List.eq_of_mem_replicate (List.get?_mem hit)
  rw [hit2] at hres
  have hid : (freshSt.id_counter + U64) % U64 = 0 := by
    show (0 + U64) % U64 = 0
    rw [Nat.zero_add, Nat.mod_self]
  rw [hid] at hres
  exact ⟨hres, Nat.ne_of_lt U64_pos⟩
